import Mathlib

/-!
Verification of the ugosh orchestration layer.

The repository contains two variants of the same single-file program:
`main.go` (the current variant) and an unnamed older variant
(`src/unnamed/part_000`).  The two variants share `main`, `run`, `runPath`
and `runInteractive` verbatim; they differ in the `-a` flag parsing, in the
mode-selection condition inside `runAll`, and in the concurrent phase of
`runAll` (fresh runner per goroutine + collect-all in `main.go`, versus a
shared runner + return-on-first-error in the older variant).  Definitions
suffixed `V0` embed the older variant where the two differ.

The shell parser and interpreter (`mvdan.cc/sh/v3`) are external to the
repository; their behaviour is modelled from the spec as a small command
language (`Cmd`) over an interpreter state (`Session`).
-/

namespace Ugosh

/-- Modelled from the spec: an `Outcome` failure is either a distinguished
exit-status signal (Go: `interp.ExitStatus`) or an ordinary error. -/
inductive Err where
  | exitStatus (n : Nat)
  | ordinary (msg : String)
deriving Repr, DecidableEq

/-- Modelled from the spec: `err.Error()` — the message carried by a failure
(`interp.ExitStatus` renders as "exit status n"). -/
def Err.message : Err → String
  | Err.exitStatus n => "exit status " ++ toString n
  | Err.ordinary m => m

/-- Modelled from the spec: one shell statement of the external interpreter,
restricted to the observables the spec talks about (variables, working
directory, explicit exit, runtime failure, printing a variable). -/
inductive Cmd where
  | assign (x v : String)
  | echoVar (x : String)
  | exitc (n : Nat)
  | fail (msg : String)
  | cd (d : String)
deriving Repr, DecidableEq

/-- Modelled from the spec: the mutable interpreter state owned by one
Execution Session (`interp.Runner`): variables, working directory, and the
flag reported by `Runner.Exited()`. -/
structure Session where
  vars : List (String × String)
  dir : String
  exited : Bool
deriving Repr, DecidableEq

/-- Modelled from the spec: the state of a freshly created runner
(`interp.New`). -/
def initSession : Session := ⟨[], "/", false⟩

/-- Modelled from the spec: `Runner.Reset` returns the interpreter to its
initial state. -/
def Session.reset (_ : Session) : Session := initSession

/-- Modelled from the spec: executing one statement (`Runner.Run` on a single
statement): returns the new state, the lines printed, and the statement's
result. -/
def execCmd (s : Session) : Cmd → Session × List String × Option Err
  | Cmd.assign x v => ({ s with vars := (x, v) :: s.vars }, [], none)
  | Cmd.echoVar x => (s, [(s.vars.lookup x).getD ""], none)
  | Cmd.exitc n => ({ s with exited := true }, [], some (Err.exitStatus n))
  | Cmd.fail m => (s, [], some (Err.ordinary m))
  | Cmd.cd d => ({ s with dir := d }, [], none)

/-- Modelled from the spec: `Runner.Run` on a whole parsed program: the
statements run in sequence, an explicit exit stops the program, and the
program's result is the last executed statement's result. -/
def runProg (s : Session) : List Cmd → Session × List String × Option Err
  | [] => (s, [], none)
  | c :: rest =>
    let r := execCmd s c
    if r.1.exited then (r.1, r.2.1, r.2.2)
    else
      let k := runProg r.1 rest
      (k.1, r.2.1 ++ k.2.1, k.2.2)

/-- A Script Source as handed to the orchestration layer: either text that
parses to a program, text the external parser rejects, or a file path that
fails to open (`runPath` intercepts the last case before parsing). -/
inductive Source where
  | prog (name : String) (cmds : List Cmd)
  | malformed (name : String)
  | missing (path : String)
deriving Repr, DecidableEq

/-- Modelled from the spec: `syntax.NewParser().Parse(reader, name)` — a parse
error is an ordinary failure naming the offending source. -/
def parse : Source → Except Err (List Cmd)
  | Source.prog _ cs => Except.ok cs
  | Source.malformed n => Except.error (Err.ordinary (n ++ ": syntax error"))
  | Source.missing p => Except.error (Err.ordinary (p ++ ": syntax error"))

/-- Embedding of `run` (identical in both variants): parse the whole source;
on a parse error return it (the session is untouched and nothing runs); on
success reset the session and run the parsed program. -/
def run (s : Session) (src : Source) : Session × List String × Option Err :=
  match parse src with
  | Except.error e => (s, [], some e)
  | Except.ok prog => runProg s.reset prog

/-- Embedding of `runPath` (identical in both variants): open the file —
an open failure is an ordinary error and nothing is parsed or run —
then `run` it. -/
def runPath (s : Session) (src : Source) : Session × List String × Option Err :=
  match src with
  | Source.missing p =>
    (s, [], some (Err.ordinary ("open " ++ p ++ ": no such file or directory")))
  | _ => run s src

/-- Embedding of the sequential loop of `runAll` (identical in both variants):
run each positional source in order on the one shared session, stopping at the
first failure.  The middle component is the trace of sources actually
attempted (passed to `runPath`, i.e. opened). -/
def runSeq (s : Session) : List Source → Session × List Source × Option Err
  | [] => (s, [], none)
  | src :: rest =>
    let r := runPath s src
    match r.2.2 with
    | some e => (r.1, [src], some e)
    | none =>
      let k := runSeq r.1 rest
      (k.1, src :: k.2.1, k.2.2)

/-- Follows the claim's words: every script of the list succeeds, each one
judged in the session state in which the Sequential Runner actually runs it. -/
def allSucceed (s : Session) : List Source → Bool
  | [] => true
  | src :: rest =>
    ((runPath s src).2.2 == none) && allSucceed (runPath s src).1 rest

/-- Embedding of `concErrors` from `main.go`: the slice of collected results. -/
def concErrors : Type := List (Option Err)

/-- Embedding of `concErrors.HasError` from `main.go`. -/
def concErrors.HasError (e : List (Option Err)) : Bool :=
  e.any (fun err => err.isSome)

/-- Embedding of `concErrors.Add` from `main.go`: append one result. -/
def concErrors.Add (e : List (Option Err)) (err : Option Err) : List (Option Err) :=
  e ++ [err]

/-- Embedding of `concErrors.GetError` from `main.go`: walk the collected
results in order, concatenating `err.Error()` plus a newline for each
failure; return that text as a fresh ordinary error if any failure was seen,
and success otherwise. -/
def concErrors.GetError (e : List (Option Err)) : Option Err :=
  let b := e.foldl (fun acc err =>
    match err with
    | some f => acc ++ (Err.message f ++ "\n")
    | none => acc) ""
  if e.any (fun err => err.isSome) then some (Err.ordinary b) else none

/-- The failure messages of a result list, in collection order, each with its
terminating newline (the shape `GetError` is claimed to concatenate). -/
def failureMessages (e : List (Option Err)) : List String :=
  (e.filterMap id).map (fun f => Err.message f ++ "\n")

/-- Embedding of running one concurrent unit in `main.go`: the goroutine
creates a brand-new runner (`interp.New`, i.e. `initSession`) and runs its
own path on it.  Returns the unit's printed output and its outcome. -/
def runUnit (src : Source) : List String × Option Err :=
  let r := runPath initSession src
  (r.2.1, r.2.2)

/-- Embedding of the concurrent phase of `main.go`'s `runAll`: every unit is
launched on its own fresh session, so the list of unit behaviours is a `map`
of `runUnit` over the sources. -/
def concRun (args : List Source) : List (List String × Option Err) :=
  args.map runUnit

/-- The per-unit outcomes of the concurrent phase of `main.go`'s `runAll`. -/
def concOutcomes (args : List Source) : List (Option Err) :=
  args.map (fun a => (runPath initSession a).2.2)

/-- Embedding of the collection loop of `main.go`'s `runAll`: receive exactly
`m` results from the channel (`delivered` is the channel's contents in
completion order), `Add`ing each one. -/
def collectLoop (m : Nat) (delivered : List (Option Err)) : List (Option Err) :=
  delivered.take m

/-- Embedding of the collection loop of the older variant (`part_000`
lines 79-83): receive results one by one and return the first failure
immediately.  Returns the loop's result and how many results were received
before returning. -/
def collectLoopV0 : List (Option Err) → Option Err × Nat
  | [] => (none, 0)
  | e :: rest =>
    match e with
    | some err => (some err, 1)
    | none =>
      let k := collectLoopV0 rest
      (k.1, k.2 + 1)

/-- The parsed command line.  `command` is `some src` when the `-c` value is
a non-empty string (the inline script, already handed to the external
parser as a `Source`); `cFlagSet` records whether `-c` was passed at all
(it can be passed with an empty value); `args` are the positional
arguments and `concArgs` the `-a` list.  Passing `-a` always yields a
non-empty `concArgs` (in `main.go` `strings.Split` never returns an empty
slice; in the older variant each occurrence appends one element). -/
structure Cli where
  command : Option Source
  cFlagSet : Bool
  args : List Source
  concArgs : List Source
deriving Repr, DecidableEq

/-- Embedding of `flag.NFlag()` for this program: the number of flags that
were set on the command line (`-c` and/or `-a`). -/
def nflag (c : Cli) : Nat :=
  (if c.cFlagSet then 1 else 0) + (if c.concArgs.isEmpty then 0 else 1)

/-- The execution mode chosen by the Script Source Resolver. -/
inductive Mode where
  | inlineCmd
  | interactive
  | stdinScript
  | scripts
deriving Repr, DecidableEq

/-- Embedding of the mode decision inside `main.go`'s `runAll` (lines 94-102):
inline command wins; else stdin/interactive requires `NArg() == 0` and
`NFlag() == 0`; else positional-plus-concurrent scripts. -/
def modeM (c : Cli) (isTerm : Bool) : Mode :=
  if c.command.isSome then Mode.inlineCmd
  else if c.args.isEmpty && nflag c == 0 then
    (if isTerm then Mode.interactive else Mode.stdinScript)
  else Mode.scripts

/-- Embedding of the mode decision inside the older variant's `runAll`
(`part_000` lines 57-65): inline command wins; else stdin/interactive
requires only `NArg() == 0` (no check of the `-a` list); else scripts. -/
def modeV0 (c : Cli) (isTerm : Bool) : Mode :=
  if c.command.isSome then Mode.inlineCmd
  else if c.args.isEmpty then
    (if isTerm then Mode.interactive else Mode.stdinScript)
  else Mode.scripts

/-- Follows the claim's words (for comparison with the code's decision):
inline if the inline command string is non-empty; else stdin/interactive
when there are no positional arguments and no concurrent-list arguments;
else scripts. -/
def claimMode (c : Cli) (isTerm : Bool) : Mode :=
  if c.command.isSome then Mode.inlineCmd
  else if c.args.isEmpty && c.concArgs.isEmpty then
    (if isTerm then Mode.interactive else Mode.stdinScript)
  else Mode.scripts

/-- Embedding of the tail of `main` (identical in both variants): map the
final outcome to the process exit status and the text written to standard
error.  An `interp.ExitStatus` failure exits with exactly that integer and
prints nothing; any other failure is printed (`Fprintln` appends a newline)
and exits 1; success exits 0. -/
def mainFinish : Option Err → Nat × Option String
  | some (Err.exitStatus n) => (n, none)
  | some (Err.ordinary m) => (1, some (m ++ "\n"))
  | none => (0, none)

/-- One chunk of interactive input as reported by the external parser's
interactive driver: after feeding it, the parser either reports the input as
still incomplete, or hands over a completed batch of statements. -/
inductive Feed where
  | incomplete
  | complete (stmts : List Cmd)
deriving Repr, DecidableEq

/-- Whether a feed completes a batch. -/
def Feed.isComplete : Feed → Bool
  | Feed.incomplete => false
  | Feed.complete _ => true

/-- Observable events of the interactive loop: the primary prompt "$ ", the
continuation prompt "> ", and the execution of one statement. -/
inductive Ev where
  | prompt1
  | prompt2
  | ran (c : Cmd)
deriving Repr, DecidableEq

/-- Whether an event is the continuation prompt. -/
def Ev.isPrompt2 : Ev → Bool
  | Ev.prompt2 => true
  | _ => false

/-- The statements actually executed, read off an event trace. -/
def ranOf : List Ev → List Cmd :=
  List.filterMap (fun ev => match ev with | Ev.ran c => some c | _ => none)

/-- State returned by the interactive loop machinery: the session, the event
trace, the current `runErr`, and whether the driver should continue (the
callback's boolean). -/
structure IState where
  sess : Session
  evs : List Ev
  err : Option Err
  cont : Bool
deriving Repr, DecidableEq

/-- Embedding of the statement loop inside `runInteractive`'s callback
(identical in both variants): run each statement of the completed batch in
sequence on the shared session, overwriting `runErr` with each statement's
result; if after some statement the interpreter has exited, stop the batch
and make the callback return false. -/
def runBatch (s : Session) (runErr : Option Err) : List Cmd → IState
  | [] => ⟨s, [], runErr, true⟩
  | c :: rest =>
    let r := execCmd s c
    if r.1.exited then ⟨r.1, [Ev.ran c], r.2.2, false⟩
    else
      let k := runBatch r.1 r.2.2 rest
      ⟨k.sess, Ev.ran c :: k.evs, k.err, k.cont⟩

/-- Embedding of `runInteractive`'s callback driven over the whole feed list
(identical in both variants): an incomplete feed prints the continuation
prompt and runs nothing; a completed batch is executed and, if the
interpreter did not exit, the primary prompt is printed and the loop goes
on; if it exited the driver stops and later feeds are never processed. -/
def iLoop (s : Session) (runErr : Option Err) : List Feed → IState
  | [] => ⟨s, [], runErr, true⟩
  | Feed.incomplete :: rest =>
    let k := iLoop s runErr rest
    ⟨k.sess, Ev.prompt2 :: k.evs, k.err, k.cont⟩
  | Feed.complete stmts :: rest =>
    let b := runBatch s runErr stmts
    if b.cont then
      let k := iLoop b.sess b.err rest
      ⟨k.sess, b.evs ++ Ev.prompt1 :: k.evs, k.err, k.cont⟩
    else b

/-- Embedding of `runInteractive` (identical in both variants): print the
primary prompt before reading any input, drive the callback over the input,
and finish with the driver's read error when it reports one (only possible
when the callback never stopped the driver), else with the last executed
statement's result. -/
def runInteractive (s : Session) (feeds : List Feed) (readErr : Option Err) :
    List Ev × Option Err :=
  let k := iLoop s none feeds
  (Ev.prompt1 :: k.evs,
    if k.cont then (match readErr with | some re => some re | none => k.err)
    else k.err)

/-- Sequential execution of a statement list on the shared session,
overwriting the carried result with each statement's result (the reference
semantics for "the final Outcome is the last executed statement's error"). -/
def runStmtsAcc (s : Session) (e : Option Err) : List Cmd → Session × Option Err
  | [] => (s, e)
  | c :: rest =>
    let r := execCmd s c
    runStmtsAcc r.1 r.2.2 rest

/-- Embedding of `main.go`'s `runAll` (the composed Script Source Resolver):
`delivered` stands for the concurrent result channel's contents in completion
order, `feeds`/`readErr` for the interactive input, `stdinSrc` for standard
input read as a script. -/
def runAllM (c : Cli) (isTerm : Bool) (stdinSrc : Source) (feeds : List Feed)
    (readErr : Option Err) (delivered : List (Option Err)) : Option Err :=
  match c.command with
  | some src => (run initSession src).2.2
  | none =>
    if c.args.isEmpty && nflag c == 0 then
      if isTerm then (runInteractive initSession feeds readErr).2
      else (run initSession stdinSrc).2.2
    else
      match (runSeq initSession c.args).2.2 with
      | some e => some e
      | none => concErrors.GetError (collectLoop c.concArgs.length delivered)

/-- One atomic session operation of a concurrent unit in the older variant:
`runPath` on the shared runner performs a `Reset` and then the script's
statements. -/
inductive UOp where
  | reset
  | exec (c : Cmd)
deriving Repr, DecidableEq

/-- The session operations a concurrent unit performs on the shared runner in
the older variant (`part_000` line 75: `runPath(r, p)` with the one shared
`r`): reset, then the parsed statements; a source that fails to open or to
parse touches the session not at all. -/
def unitOps : Source → List UOp
  | Source.prog _ cs => UOp.reset :: cs.map UOp.exec
  | Source.malformed _ => []
  | Source.missing _ => []

/-- Apply one unit operation to the shared session, returning the lines it
prints. -/
def stepU (s : Session) : UOp → Session × List String
  | UOp.reset => (s.reset, [])
  | UOp.exec c =>
    let r := execCmd s c
    (r.1, r.2.1)

/-- Embedding of the concurrent phase of the older variant's `runAll`
(`part_000` lines 73-77) for two goroutines: both units operate on the one
shared session, their operations interleaved according to `sched` (`true`
steps the first unit, `false` the second).  Returns the final session and
each unit's printed output. -/
def interleave2 (s : Session) (a b : List UOp) :
    List Bool → Session × List String × List String
  | [] => (s, [], [])
  | true :: sch =>
    match a with
    | [] => interleave2 s [] b sch
    | op :: a2 =>
      let r := stepU s op
      let k := interleave2 r.1 a2 b sch
      (k.1, r.2 ++ k.2.1, k.2.2)
  | false :: sch =>
    match b with
    | [] => interleave2 s a [] sch
    | op :: b2 =>
      let r := stepU s op
      let k := interleave2 r.1 a b2 sch
      (k.1, k.2.1, r.2 ++ k.2.2)

theorem foldl_Add_eq (os acc : List (Option Err)) :
    List.foldl concErrors.Add acc os = acc ++ os := by
  induction os generalizing acc with
  | nil => simp [concErrors.Add]
  | cons e rest ih => simp [concErrors.Add, ih]

theorem getError_foldl (os : List (Option Err)) (acc : String) :
    os.foldl (fun acc2 err => match err with
      | some f => acc2 ++ (Err.message f ++ "\n")
      | none => acc2) acc
    = (failureMessages os).foldl (fun r m => r ++ m) acc := by
  induction os generalizing acc with
  | nil => simp [failureMessages]
  | cons e rest ih =>
    cases e with
    | none => simpa [failureMessages] using ih acc
    | some f => simpa [failureMessages] using ih (acc ++ (Err.message f ++ "\n"))

theorem getError_closed (os : List (Option Err)) :
    concErrors.GetError os =
      if os.any (fun err => err.isSome) then
        some (Err.ordinary (String.join (failureMessages os))) else none := by
  simp only [concErrors.GetError]
  rw [getError_foldl os ""]
  rfl

theorem filterMap_id_length (os : List (Option Err)) :
    (os.filterMap id).length = os.countP (fun x => x.isSome) := by
  induction os with
  | nil => rfl
  | cons e rest ih => cases e <;> simp [List.countP_cons, ih]

/-- C3: the Result Aggregator's composite outcome is a failure exactly when at
least one added outcome is a failure (zero failures added means success no
matter how many successes), and on failure its message is the concatenation
of exactly the failure messages, each followed by a newline, in the order the
outcomes were added. -/
theorem C3_aggregator (os : List (Option Err)) :
    List.foldl concErrors.Add [] os = os
    ∧ ((concErrors.GetError os).isSome = true ↔ ∃ x ∈ os, x.isSome = true)
    ∧ ((∀ x ∈ os, x = none) → concErrors.GetError os = none)
    ∧ (concErrors.HasError os = true →
        concErrors.GetError os = some (Err.ordinary (String.join (failureMessages os))))
    ∧ (failureMessages os).length = os.countP (fun x => x.isSome) := by
  refine ⟨by simpa using foldl_Add_eq os [], ?_, ?_, ?_, ?_⟩
  · rw [getError_closed]
    by_cases h : os.any (fun err => err.isSome) = true
    · simp only [h, if_true, Option.isSome_some]
      simp only [List.any_eq_true] at h
      simpa using h
    · simp only [h, if_false]
      simp only [List.any_eq_true] at h
      simpa using h
  · intro hall
    rw [getError_closed]
    have : os.any (fun err => err.isSome) = false := by
      simp only [List.any_eq_false]
      intro x hx
      rw [hall x hx]
      simp
    simp [this]
  · intro h
    rw [getError_closed]
    simp only [concErrors.HasError] at h
    simp [h]
  · simpa [failureMessages] using filterMap_id_length os

/-- Witness for C3: aggregating one ordinary failure, one success and one
exit-status failure gives a composite failure whose message is the two
failure messages, each on its own line, in the order added. -/
theorem C3_aggregator_witness :
    concErrors.HasError [some (Err.ordinary "a"), none, some (Err.exitStatus 3)] = true
    ∧ concErrors.GetError [some (Err.ordinary "a"), none, some (Err.exitStatus 3)]
        = some (Err.ordinary "a\nexit status 3\n") := by
  refine ⟨by decide, ?_⟩
  have h := (C3_aggregator [some (Err.ordinary "a"), none, some (Err.exitStatus 3)]).2.2.2.1
    (by decide)
  exact h.trans (by decide)

/-- C5: the tail of `main` maps an exit-status outcome to exactly that exit
code with nothing on standard error, any other failure to exit code 1 with
its message printed, and success to exit code 0; end-to-end, the inline
command `exit 7` makes the process exit with status 7 and write nothing to
standard error. -/
theorem C5_exit_codes :
    (∀ n, mainFinish (some (Err.exitStatus n)) = (n, none))
    ∧ (∀ m, mainFinish (some (Err.ordinary m)) = (1, some (m ++ "\n")))
    ∧ mainFinish none = (0, none)
    ∧ mainFinish (runAllM ⟨some (Source.prog "" [Cmd.exitc 7]), true, [], []⟩ false
        (Source.prog "" []) [] none []) = (7, none) :=
  ⟨fun _ => rfl, fun _ => rfl, rfl, by decide⟩

/-- C6: `run` parses the whole source first; a parse error is returned as an
ordinary failure naming the source, with the session left exactly as it was,
no reset performed and nothing executed; only on a successful parse is the
session reset and the parsed program run, its result becoming the outcome. -/
theorem C6_parse_then_run :
    (∀ (s : Session) (name : String),
      run s (Source.malformed name)
        = (s, [], some (Err.ordinary (name ++ ": syntax error"))))
    ∧ (∀ (s : Session) (name : String) (cmds : List Cmd),
      run s (Source.prog name cmds) = runProg s.reset cmds) :=
  ⟨fun _ _ => rfl, fun _ _ _ => rfl⟩

/-- C1 (amended): in the `main.go` variant every concurrent unit runs on its
own brand-new session, so each unit's entire observable behaviour (output
and outcome) is a function of its own source alone — replacing a sibling
never changes it — and a sibling of `X=1` that runs `echo $X` prints the
empty string, never `1`.  (The older variant instead hands every concurrent
goroutine the one shared session, which is what the counterexample
exhibits.) -/
theorem C1_amended_isolation :
    (∀ (args : List Source) (i : Nat), (concRun args)[i]? = args[i]?.map runUnit)
    ∧ (∀ (args : List Source) (j : Nat) (b : Source) (i : Nat), i ≠ j →
        (concRun (args.set j b))[i]? = (concRun args)[i]?)
    ∧ concRun [Source.prog "a" [Cmd.assign "X" "1"], Source.prog "b" [Cmd.echoVar "X"]]
        = [([], none), ([""], none)] := by
  refine ⟨?_, ?_, by decide⟩
  · intro args i
    simp [concRun]
  · intro args j b i h
    unfold concRun
    rw [List.map_set]
    exact List.getElem?_set_ne (Ne.symm h)

/-- Witness for C1 (amended): replacing the first of two concurrent scripts
by a malformed one does not change the second unit's behaviour. -/
theorem C1_amended_isolation_witness :
    (concRun ([Source.prog "a" [Cmd.assign "X" "1"],
        Source.prog "b" [Cmd.echoVar "X"]].set 0 (Source.malformed "bad")))[1]?
      = (concRun [Source.prog "a" [Cmd.assign "X" "1"],
          Source.prog "b" [Cmd.echoVar "X"]])[1]? :=
  C1_amended_isolation.2.1
    [Source.prog "a" [Cmd.assign "X" "1"], Source.prog "b" [Cmd.echoVar "X"]]
    0 (Source.malformed "bad") 1 (by decide)

/-- Counterexample to C1 as stated: in the older variant (`part_000`
lines 73-77) all concurrent goroutines share the one session, so under the
interleaving "unit a resets, unit b resets, unit a runs `X=1`, unit b runs
`echo $X`" the sibling prints `1` — a variable assigned in one concurrent
script is visible to a sibling. -/
theorem C1_counterexample :
    (interleave2 initSession
        (unitOps (Source.prog "a" [Cmd.assign "X" "1"]))
        (unitOps (Source.prog "b" [Cmd.echoVar "X"]))
        [true, false, true, false]).2.2 = ["1"] := by decide

/-- C2 (amended): in the `main.go` variant the collection loop receives
exactly one result per launched unit — all of them, whatever order the units
complete in — before the composite is formed over all of them, and a unit's
outcome is a function of its own source only (no sibling is aborted because
another failed).  In the older variant the collection loop returns at the
first failing result it receives. -/
theorem C2_amended_collection (args : List Source) (delivered : List (Option Err))
    (h : delivered.Perm (concOutcomes args)) :
    collectLoop args.length delivered = delivered
    ∧ concErrors.GetError (collectLoop args.length delivered)
        = concErrors.GetError delivered
    ∧ (collectLoop args.length delivered).length = args.length
    ∧ (∀ i : Nat, (concOutcomes args)[i]?
        = args[i]?.map (fun a => (runPath initSession a).2.2))
    ∧ (∀ (e : Err) (rest : List (Option Err)),
        collectLoopV0 (some e :: rest) = (some e, 1)) := by
  have hlen : delivered.length = args.length := by
    simpa [concOutcomes] using h.length_eq
  have h1 : collectLoop args.length delivered = delivered := by
    rw [collectLoop, ← hlen, List.take_length]
  refine ⟨h1, by rw [h1], by rw [h1, hlen], ?_, fun _ _ => rfl⟩
  intro i
  simp [concOutcomes]

/-- Witness for C2 (amended): two units, failure delivered first — the
`main.go` collection still receives both results. -/
theorem C2_amended_collection_witness :
    collectLoop 2 [none, some (Err.ordinary "m: syntax error")]
      = [none, some (Err.ordinary "m: syntax error")] :=
  (C2_amended_collection [Source.malformed "m", Source.prog "p" []]
    [none, some (Err.ordinary "m: syntax error")] (by decide)).1

/-- Counterexample to C2 as stated: in the older variant (`part_000`
lines 79-83), with two launched units and the failing unit's result
delivered first, the runner returns that failure having received only one of
the two results — it does not collect one result per launched unit. -/
theorem C2_counterexample :
    (collectLoopV0 [some (Err.ordinary "boom"), none]).1 = some (Err.ordinary "boom")
    ∧ (collectLoopV0 [some (Err.ordinary "boom"), none]).2
        ≠ ([some (Err.ordinary "boom"), none] : List (Option Err)).length := by
  decide

/-- C7 (amended): a non-empty inline command runs alone, the positional and
concurrent arguments unused; in the `main.go` variant the stdin/interactive
branch is taken exactly when there are no positional arguments and no flags
at all, and otherwise the positional arguments run sequentially in order
with the concurrent arguments aggregated only after all of them succeed; the
older variant's stdin/interactive branch tests only that there are no
positional arguments, so it is taken even when concurrent-list arguments
were given. -/
theorem C7_amended_mode (c : Cli) (isTerm : Bool) (ss : Source) (feeds : List Feed)
    (re : Option Err) (d : List (Option Err)) :
    (∀ src, c.command = some src →
      runAllM c isTerm ss feeds re d = (run initSession src).2.2)
    ∧ (c.command = none → c.args = [] → nflag c = 0 →
      runAllM c isTerm ss feeds re d =
        (if isTerm then (runInteractive initSession feeds re).2
         else (run initSession ss).2.2))
    ∧ (c.command = none → (c.args.isEmpty && nflag c == 0) = false →
      runAllM c isTerm ss feeds re d =
        (match (runSeq initSession c.args).2.2 with
         | some e => some e
         | none => concErrors.GetError (collectLoop c.concArgs.length d)))
    ∧ (c.command = none → c.args = [] →
      modeV0 c isTerm = (if isTerm then Mode.interactive else Mode.stdinScript)) := by
  refine ⟨?_, ?_, ?_, ?_⟩
  · intro src h
    simp [runAllM, h]
  · intro h1 h2 h3
    simp [runAllM, h1, h2, h3]
  · intro h1 h2
    simp only [runAllM, h1, h2, Bool.false_eq_true, if_false]
  · intro h1 h2
    simp [modeV0, h1, h2]

/-- Witness for C7 (amended): with no positional arguments, a terminal stdin
and one concurrent-list argument, the older variant still chooses
interactive mode. -/
theorem C7_amended_mode_witness :
    modeV0 ⟨none, false, [], [Source.prog "g" []]⟩ true = Mode.interactive :=
  (C7_amended_mode ⟨none, false, [], [Source.prog "g" []]⟩ true (Source.prog "" [])
    [] none []).2.2.2 rfl rfl

/-- Counterexample to C7 as stated: the older variant, given no positional
arguments, a non-terminal stdin and one concurrent-list argument, reads
stdin as the script — the claim requires the concurrent argument to run in
parallel instead (mode `scripts`). -/
theorem C7_counterexample :
    modeV0 ⟨none, false, [], [Source.prog "f" []]⟩ false = Mode.stdinScript
    ∧ claimMode ⟨none, false, [], [Source.prog "f" []]⟩ false = Mode.scripts
    ∧ Mode.stdinScript ≠ Mode.scripts := by decide

theorem runSeq_cons (s : Session) (src : Source) (rest : List Source) :
    runSeq s (src :: rest)
      = match (runPath s src).2.2 with
        | some e => ((runPath s src).1, [src], some e)
        | none =>
          ((runSeq (runPath s src).1 rest).1,
           src :: (runSeq (runPath s src).1 rest).2.1,
           (runSeq (runPath s src).1 rest).2.2) := rfl

theorem runSeq_ok_iff (srcs : List Source) : ∀ s : Session,
    (runSeq s srcs).2.2 = none ↔ allSucceed s srcs = true := by
  induction srcs with
  | nil => intro s; simp [runSeq, allSucceed]
  | cons src rest ih =>
    intro s
    rw [runSeq_cons]
    cases heq : (runPath s src).2.2 with
    | some e => simp [allSucceed, heq]
    | none => simp [allSucceed, heq, ih]

theorem runSeq_ok_trace (srcs : List Source) : ∀ s : Session,
    (runSeq s srcs).2.2 = none → (runSeq s srcs).2.1 = srcs := by
  induction srcs with
  | nil => intro s _; rfl
  | cons src rest ih =>
    intro s h
    rw [runSeq_cons] at h ⊢
    cases heq : (runPath s src).2.2 with
    | some e => simp [heq] at h
    | none =>
      simp only [heq] at h ⊢
      simpa using ih _ h

theorem runSeq_append_ok (pre : List Source) : ∀ (s : Session) (rest2 : List Source),
    (runSeq s pre).2.2 = none →
    runSeq s (pre ++ rest2)
      = ((runSeq (runSeq s pre).1 rest2).1,
         pre ++ (runSeq (runSeq s pre).1 rest2).2.1,
         (runSeq (runSeq s pre).1 rest2).2.2) := by
  induction pre with
  | nil => intro s rest2 _; simp [runSeq]
  | cons p pre2 ih =>
    intro s rest2 h
    rw [runSeq_cons] at h
    rw [List.cons_append, runSeq_cons]
    cases heq : (runPath s p).2.2 with
    | some e => simp [heq] at h
    | none =>
      simp only [heq] at h
      simp only [heq]
      rw [ih _ _ h]
      rw [runSeq_cons]
      simp [heq]

/-- C4: sequentially, if every script before `src` succeeds and `src` fails,
the scripts after `src` are never attempted (never handed to `runPath`, so
never opened or executed), the trace of attempted scripts ends at `src`, and
the runner's result is exactly `src`'s failure; the runner succeeds iff every
script succeeds in the state it is actually run in. -/
theorem C4_sequential :
    (∀ (s : Session) (pre post : List Source) (src : Source) (e : Err),
      (runSeq s pre).2.2 = none →
      (runPath (runSeq s pre).1 src).2.2 = some e →
      runSeq s (pre ++ src :: post)
        = ((runPath (runSeq s pre).1 src).1, pre ++ [src], some e))
    ∧ (∀ (s : Session) (srcs : List Source),
      (runSeq s srcs).2.2 = none ↔ allSucceed s srcs = true)
    ∧ (∀ (s : Session) (srcs : List Source),
      (runSeq s srcs).2.2 = none → (runSeq s srcs).2.1 = srcs) := by
  refine ⟨?_, fun s srcs => runSeq_ok_iff srcs s, fun s srcs => runSeq_ok_trace srcs s⟩
  intro s pre post src e hpre hfail
  rw [runSeq_append_ok pre s (src :: post) hpre]
  rw [runSeq_cons]
  simp [hfail]

/-- Witness for C4: with a succeeding first script, a malformed second and a
third after it, the runner stops at the second script and the third is never
attempted. -/
theorem C4_sequential_witness :
    runSeq initSession
        ([Source.prog "a" [Cmd.assign "X" "1"]]
          ++ Source.malformed "b" :: [Source.prog "c" []])
      = (⟨[("X", "1")], "/", false⟩,
         [Source.prog "a" [Cmd.assign "X" "1"], Source.malformed "b"],
         some (Err.ordinary "b: syntax error")) := by
  have h := C4_sequential.1 initSession [Source.prog "a" [Cmd.assign "X" "1"]]
    [Source.prog "c" []] (Source.malformed "b") (Err.ordinary "b: syntax error")
    (by decide) (by decide)
  exact h.trans (by decide)

theorem runBatch_cons (s : Session) (e : Option Err) (c : Cmd) (rest : List Cmd) :
    runBatch s e (c :: rest)
      = if (execCmd s c).1.exited then
          ⟨(execCmd s c).1, [Ev.ran c], (execCmd s c).2.2, false⟩
        else
          ⟨(runBatch (execCmd s c).1 (execCmd s c).2.2 rest).sess,
           Ev.ran c :: (runBatch (execCmd s c).1 (execCmd s c).2.2 rest).evs,
           (runBatch (execCmd s c).1 (execCmd s c).2.2 rest).err,
           (runBatch (execCmd s c).1 (execCmd s c).2.2 rest).cont⟩ := rfl

theorem iLoop_incomplete (s : Session) (e : Option Err) (rest : List Feed) :
    iLoop s e (Feed.incomplete :: rest)
      = ⟨(iLoop s e rest).sess, Ev.prompt2 :: (iLoop s e rest).evs,
         (iLoop s e rest).err, (iLoop s e rest).cont⟩ := rfl

theorem iLoop_complete (s : Session) (e : Option Err) (stmts : List Cmd)
    (rest : List Feed) :
    iLoop s e (Feed.complete stmts :: rest)
      = if (runBatch s e stmts).cont then
          ⟨(iLoop (runBatch s e stmts).sess (runBatch s e stmts).err rest).sess,
           (runBatch s e stmts).evs ++ Ev.prompt1 ::
             (iLoop (runBatch s e stmts).sess (runBatch s e stmts).err rest).evs,
           (iLoop (runBatch s e stmts).sess (runBatch s e stmts).err rest).err,
           (iLoop (runBatch s e stmts).sess (runBatch s e stmts).err rest).cont⟩
        else runBatch s e stmts := rfl

theorem runBatch_no_prompt2 (b : List Cmd) : ∀ (s : Session) (e : Option Err)
    (ev : Ev), ev ∈ (runBatch s e b).evs → ev.isPrompt2 = false := by
  induction b with
  | nil => intro s e ev h; simp [runBatch] at h
  | cons c rest ih =>
    intro s e ev h
    rw [runBatch_cons] at h
    by_cases hx : (execCmd s c).1.exited
    · rw [if_pos hx] at h
      simp at h
      subst h
      rfl
    · rw [if_neg hx] at h
      simp at h
      rcases h with h | h
      · subst h; rfl
      · exact ih _ _ ev h

theorem isPrompt2_prompt1 : Ev.isPrompt2 Ev.prompt1 = false := rfl

theorem runBatch_evs_filter (b : List Cmd) (s : Session) (e : Option Err) :
    (runBatch s e b).evs.filter (fun ev => !ev.isPrompt2) = (runBatch s e b).evs := by
  apply List.filter_eq_self.mpr
  intro a ha
  simp [runBatch_no_prompt2 b s e a ha]

theorem iLoop_filter (feeds : List Feed) : ∀ (s : Session) (e : Option Err),
    iLoop s e (feeds.filter Feed.isComplete)
      = ⟨(iLoop s e feeds).sess,
         (iLoop s e feeds).evs.filter (fun ev => !ev.isPrompt2),
         (iLoop s e feeds).err, (iLoop s e feeds).cont⟩ := by
  induction feeds with
  | nil => intro s e; rfl
  | cons f rest ih =>
    intro s e
    cases f with
    | incomplete =>
      rw [iLoop_incomplete]
      simpa [List.filter_cons, Feed.isComplete, Ev.isPrompt2] using ih s e
    | complete stmts =>
      rw [List.filter_cons]
      simp only [Feed.isComplete, if_true]
      rw [iLoop_complete, iLoop_complete]
      by_cases hc : (runBatch s e stmts).cont
      · simp only [hc, if_true]
        rw [ih]
        simp [List.filter_append, runBatch_evs_filter, List.filter_cons, isPrompt2_prompt1]
      · simp only [hc, Bool.false_eq_true, if_false]
        have hcf : (runBatch s e stmts).cont = false := by
          simpa using hc
        rw [← hcf, runBatch_evs_filter]

/-- C8: the interactive loop emits the very first primary prompt before any
input is read; an incomplete feed emits exactly the continuation prompt and
executes nothing (the loop just reads on, session, result and continuation
unchanged); after a completed, non-exiting batch the primary prompt is
emitted before the next statement; and removing the incomplete feeds from
the input changes nothing but the continuation prompts in the trace — an
incomplete statement is never run. -/
theorem C8_prompt_discipline :
    (∀ (s : Session) (feeds : List Feed) (re : Option Err),
      (runInteractive s feeds re).1.head? = some Ev.prompt1)
    ∧ (∀ (s : Session) (e : Option Err) (rest : List Feed),
      iLoop s e (Feed.incomplete :: rest)
        = ⟨(iLoop s e rest).sess, Ev.prompt2 :: (iLoop s e rest).evs,
           (iLoop s e rest).err, (iLoop s e rest).cont⟩)
    ∧ (∀ (s : Session) (e : Option Err) (stmts : List Cmd) (rest : List Feed),
      (runBatch s e stmts).cont = true →
      iLoop s e (Feed.complete stmts :: rest)
        = ⟨(iLoop (runBatch s e stmts).sess (runBatch s e stmts).err rest).sess,
           (runBatch s e stmts).evs ++ Ev.prompt1 ::
             (iLoop (runBatch s e stmts).sess (runBatch s e stmts).err rest).evs,
           (iLoop (runBatch s e stmts).sess (runBatch s e stmts).err rest).err,
           (iLoop (runBatch s e stmts).sess (runBatch s e stmts).err rest).cont⟩)
    ∧ (∀ (s : Session) (e : Option Err) (feeds : List Feed),
      iLoop s e (feeds.filter Feed.isComplete)
        = ⟨(iLoop s e feeds).sess,
           (iLoop s e feeds).evs.filter (fun ev => !ev.isPrompt2),
           (iLoop s e feeds).err, (iLoop s e feeds).cont⟩) := by
  refine ⟨fun s feeds re => rfl, fun s e rest => iLoop_incomplete s e rest, ?_,
    fun s e feeds => iLoop_filter feeds s e⟩
  intro s e stmts rest h
  rw [iLoop_complete, if_pos h]

/-- Witness for C8: a completed one-statement batch followed by an incomplete
feed — the trace is the executed statement, then the primary prompt, then
the continuation prompt. -/
theorem C8_prompt_discipline_witness :
    iLoop initSession none [Feed.complete [Cmd.assign "x" "1"], Feed.incomplete]
      = ⟨⟨[("x", "1")], "/", false⟩,
         [Ev.ran (Cmd.assign "x" "1"), Ev.prompt1, Ev.prompt2], none, true⟩ := by
  have h := C8_prompt_discipline.2.2.1 initSession none [Cmd.assign "x" "1"]
    [Feed.incomplete] (by decide)
  exact h.trans (by decide)

theorem runStmtsAcc_append (xs : List Cmd) : ∀ (s : Session) (e : Option Err)
    (ys : List Cmd),
    runStmtsAcc s e (xs ++ ys)
      = runStmtsAcc (runStmtsAcc s e xs).1 (runStmtsAcc s e xs).2 ys := by
  induction xs with
  | nil => intro s e ys; rfl
  | cons c rest ih => intro s e ys; simp [runStmtsAcc, ih]

theorem ranOf_append (xs ys : List Ev) : ranOf (xs ++ ys) = ranOf xs ++ ranOf ys :=
  List.filterMap_append xs ys _

theorem runBatch_runStmts (b : List Cmd) : ∀ (s : Session) (e : Option Err),
    ((runBatch s e b).sess, (runBatch s e b).err)
      = runStmtsAcc s e (ranOf (runBatch s e b).evs) := by
  induction b with
  | nil => intro s e; rfl
  | cons c rest ih =>
    intro s e
    rw [runBatch_cons]
    by_cases hx : (execCmd s c).1.exited
    · simp only [hx, if_true]
      rfl
    · simp only [hx, Bool.false_eq_true, if_false]
      simpa [ranOf, runStmtsAcc] using ih (execCmd s c).1 (execCmd s c).2.2

theorem iLoop_runStmts (feeds : List Feed) : ∀ (s : Session) (e : Option Err),
    ((iLoop s e feeds).sess, (iLoop s e feeds).err)
      = runStmtsAcc s e (ranOf (iLoop s e feeds).evs) := by
  induction feeds with
  | nil => intro s e; rfl
  | cons f rest ih =>
    intro s e
    cases f with
    | incomplete =>
      rw [iLoop_incomplete]
      simpa [ranOf] using ih s e
    | complete stmts =>
      rw [iLoop_complete]
      by_cases hc : (runBatch s e stmts).cont
      · simp only [hc, if_true]
        rw [ranOf_append, runStmtsAcc_append]
        have hb := runBatch_runStmts stmts s e
        rw [← hb]
        simpa [ranOf] using ih (runBatch s e stmts).sess (runBatch s e stmts).err
      · simp only [hc, Bool.false_eq_true, if_false]
        exact runBatch_runStmts stmts s e

/-- C9: a statement after which the interpreter has exited ends its batch
(the rest of the batch is never executed) and stops the whole loop (later
feeds are never processed); the statements of completed batches run in
sequence against the one shared session, and the loop's final outcome is the
result of the last executed statement (none when nothing was executed). -/
theorem C9_batch_execution :
    (∀ (s : Session) (e : Option Err) (c : Cmd) (rest : List Cmd),
      (execCmd s c).1.exited = true →
      runBatch s e (c :: rest)
        = ⟨(execCmd s c).1, [Ev.ran c], (execCmd s c).2.2, false⟩)
    ∧ (∀ (s : Session) (e : Option Err) (stmts : List Cmd) (rest : List Feed),
      (runBatch s e stmts).cont = false →
      iLoop s e (Feed.complete stmts :: rest) = runBatch s e stmts)
    ∧ (∀ (s : Session) (feeds : List Feed),
      ((iLoop s none feeds).sess, (iLoop s none feeds).err)
        = runStmtsAcc s none (ranOf (iLoop s none feeds).evs))
    ∧ (∀ (s : Session) (feeds : List Feed),
      (runInteractive s feeds none).2
        = (runStmtsAcc s none (ranOf (runInteractive s feeds none).1)).2) := by
  refine ⟨?_, ?_, fun s feeds => iLoop_runStmts feeds s none, ?_⟩
  · intro s e c rest h
    rw [runBatch_cons, if_pos h]
  · intro s e stmts rest h
    rw [iLoop_complete]
    simp [h]
  · intro s feeds
    have hend : (runInteractive s feeds none).2 = (iLoop s none feeds).err := by
      simp [runInteractive, ite_self]
    have hev : ranOf (runInteractive s feeds none).1 = ranOf (iLoop s none feeds).evs := by
      simp [runInteractive, ranOf]
    rw [hend, hev]
    exact congrArg Prod.snd (iLoop_runStmts feeds s none)

/-- Witness for C9: a batch whose first statement is `exit 3` — the second
statement of the batch never runs, the later feed is never processed, and
the final outcome is the exit-status failure. -/
theorem C9_batch_execution_witness :
    iLoop initSession none
        [Feed.complete [Cmd.exitc 3, Cmd.assign "x" "1"], Feed.incomplete]
      = ⟨⟨[], "/", true⟩, [Ev.ran (Cmd.exitc 3)], some (Err.exitStatus 3), false⟩ := by
  have h := C9_batch_execution.2.1 initSession none [Cmd.exitc 3, Cmd.assign "x" "1"]
    [Feed.incomplete] (by decide)
  exact h.trans (by decide)

/-- C10 (implicit): a statement failing with an ordinary (non-exit) error
does not stop its batch — the remaining statements still run — and only the
last executed statement's result is retained: earlier errors are overwritten
and, when the last statement succeeds, never reported. -/
theorem C10_error_overwrite :
    (∀ (s : Session) (e : Option Err) (m : String) (rest : List Cmd),
      s.exited = false →
      runBatch s e (Cmd.fail m :: rest)
        = ⟨(runBatch s (some (Err.ordinary m)) rest).sess,
           Ev.ran (Cmd.fail m) :: (runBatch s (some (Err.ordinary m)) rest).evs,
           (runBatch s (some (Err.ordinary m)) rest).err,
           (runBatch s (some (Err.ordinary m)) rest).cont⟩)
    ∧ (∀ (s : Session) (e : Option Err) (cmds : List Cmd) (c : Cmd),
      (runStmtsAcc s e (cmds ++ [c])).2 = (execCmd (runStmtsAcc s e cmds).1 c).2.2)
    ∧ (iLoop initSession none [Feed.complete [Cmd.fail "boom", Cmd.assign "x" "1"]]).err
        = none
    ∧ ranOf (iLoop initSession none
        [Feed.complete [Cmd.fail "boom", Cmd.assign "x" "1"]]).evs
        = [Cmd.fail "boom", Cmd.assign "x" "1"] := by
  refine ⟨?_, ?_, by decide, by decide⟩
  · intro s e m rest h
    rw [runBatch_cons]
    simp [execCmd, h]
  · intro s e cmds c
    rw [runStmtsAcc_append]
    simp [runStmtsAcc]

/-- Witness for C10: `false`-like failing statement followed by a succeeding
assignment — the batch continues and the final retained error is `none`. -/
theorem C10_error_overwrite_witness :
    runBatch initSession none [Cmd.fail "boom", Cmd.assign "x" "1"]
      = ⟨⟨[("x", "1")], "/", false⟩,
         [Ev.ran (Cmd.fail "boom"), Ev.ran (Cmd.assign "x" "1")], none, true⟩ := by
  have h := C10_error_overwrite.1 initSession none "boom" [Cmd.assign "x" "1"]
    (by decide)
  exact h.trans (by decide)

end Ugosh
